import Mathlib

/-!
Shallow embedding of the ProjectFlow backend (Express routes in
`server/routes.ts`, storage layer `DatabaseStorage` in `server/storage.ts`,
Drizzle schema in `shared/schema.ts`).

Conventions:
* UUIDs become `Nat` identifiers; the database state carries a counter
  `nextId` from which freshly generated ids are drawn.
* Timestamps (`createdAt` / `updatedAt` / `joinedAt` / `deadline`) become
  `Nat` clock values threaded into the operations that write them
  (mirroring `new Date()` / SQL `now()` defaults).
* `bcrypt.hash` is an external primitive and is passed in as an abstract
  `hash : String → String` parameter; JWT signing is modelled by a token
  value carrying its payload and the secret it was signed with, with
  verification comparing secrets.
* Fallible SQL statements become `Option`-returning functions; an Express
  response becomes an `HResult` value (status code plus payload or error
  message) paired with the post-request database state.
-/

namespace ProjectFlow

/-- Schema enum `member_role` of the schema. -/
inductive Role where
  | owner
  | member
deriving DecidableEq, Repr

/-- Schema enum `task_status` of the schema. -/
inductive TaskStatus where
  | todo
  | in_progress
  | done
deriving DecidableEq, Repr

/-- Schema enum `task_priority` of the schema. -/
inductive Priority where
  | low
  | medium
  | high
deriving DecidableEq, Repr

/-- Schema enum `project_status` of the schema. -/
inductive ProjectStatus where
  | active
  | completed
  | on_hold
deriving DecidableEq, Repr

/-- A row of the `users` table. `password` stores the bcrypt hash. -/
structure User where
  id : Nat
  firstName : String
  lastName : String
  email : String
  password : String
  profileImageUrl : Option String
  createdAt : Nat
  updatedAt : Nat
deriving DecidableEq, Repr

/-- A row of the `projects` table. -/
structure Project where
  id : Nat
  name : String
  description : Option String
  inviteCode : String
  status : ProjectStatus
  deadline : Option Nat
  createdBy : Nat
  createdAt : Nat
  updatedAt : Nat
deriving DecidableEq, Repr

/-- A row of the `project_members` table. -/
structure Membership where
  id : Nat
  projectId : Nat
  userId : Nat
  role : Role
  joinedAt : Nat
deriving DecidableEq, Repr

/-- A row of the `tasks` table. -/
structure Task where
  id : Nat
  title : String
  description : Option String
  status : TaskStatus
  priority : Priority
  projectId : Nat
  assigneeId : Option Nat
  createdBy : Nat
  createdAt : Nat
  updatedAt : Nat
deriving DecidableEq, Repr

/-- The database state: the four tables plus the id-generation counter. -/
structure DB where
  users : List User
  projects : List Project
  members : List Membership
  tasks : List Task
  nextId : Nat
deriving DecidableEq, Repr

/-- Handler outcome: an HTTP status code with either a payload (`ok`) or an
error message (`err`), mirroring `res.status(c).json(...)`. -/
inductive HResult (α : Type) where
  | ok : Nat → α → HResult α
  | err : Nat → String → HResult α
deriving DecidableEq, Repr

namespace HResult

/-- Whether the response is a success (`ok`). -/
def isOk {α : Type} : HResult α → Bool
  | .ok _ _ => true
  | .err _ _ => false

/-- The success payload, when there is one. -/
def okVal? {α : Type} : HResult α → Option α
  | .ok _ a => some a
  | .err _ _ => none

end HResult

/-! ## Storage layer (`DatabaseStorage`) -/

/-- Storage `getUser`: select a user row by id. -/
def getUser (db : DB) (id : Nat) : Option User :=
  db.users.find? (fun u => u.id == id)

/-- Storage `getUserByEmail`: select a user row by email. -/
def getUserByEmail (db : DB) (email : String) : Option User :=
  db.users.find? (fun u => u.email == email)

/-- Storage `getProject`: select a project row by id. -/
def getProject (db : DB) (id : Nat) : Option Project :=
  db.projects.find? (fun p => p.id == id)

/-- Storage `getProjectByInviteCode`: select a project row by its invite code. -/
def getProjectByInviteCode (db : DB) (code : String) : Option Project :=
  db.projects.find? (fun p => p.inviteCode == code)

/-- Storage `getUserProjectRole`: the caller's role in a project, if any
membership row exists. -/
def getUserProjectRole (db : DB) (projectId userId : Nat) : Option Role :=
  (db.members.find? (fun m => m.projectId == projectId && m.userId == userId)).map
    (fun m => m.role)

/-- Row lookup `findTaskRow`: select a task row by id (the `tasks` part of
`storage.getTask`). -/
def findTaskRow (db : DB) (id : Nat) : Option Task :=
  db.tasks.find? (fun t => t.id == id)

/-- A project-member row joined with its user row, as produced by the
`leftJoin(users, ...)` in `getProjectWithMembers` (the code then asserts
the joined user non-null with `m.users!`; the join result is kept as an
`Option` here). -/
structure MemberWithUser where
  member : Membership
  user : Option User
deriving DecidableEq, Repr

/-- Response shape `ProjectWithMembers`: a project hydrated with members (each joined
with its full user row), its tasks and its creator's full user row. -/
structure ProjectWithMembers where
  project : Project
  members : List MemberWithUser
  tasks : List Task
  creator : Option User
deriving DecidableEq, Repr

/-- Storage `getProjectWithMembers`: hydrate a project with member+user rows, its
task rows and the creator's user row.  The embedded user records are the
complete rows produced by `select().from(...)` — no column projection. -/
def getProjectWithMembers (db : DB) (id : Nat) : Option ProjectWithMembers :=
  (getProject db id).map (fun p =>
    { project := p
      members := (db.members.filter (fun m => m.projectId == id)).map
        (fun m => { member := m, user := db.users.find? (fun u => u.id == m.userId) })
      tasks := db.tasks.filter (fun t => t.projectId == id)
      creator := db.users.find? (fun u => u.id == p.createdBy) })

/-- Response shape `TaskWithDetails`: a task hydrated with its assignee's and creator's
full user rows and its project row. -/
structure TaskWithDetails where
  task : Task
  assignee : Option User
  creator : Option User
  project : Option Project
deriving DecidableEq, Repr

/-- Storage `getTask`: hydrate a task with assignee, creator and project
via left joins; again whole rows, no column projection. -/
def getTask (db : DB) (id : Nat) : Option TaskWithDetails :=
  (findTaskRow db id).map (fun t =>
    { task := t
      assignee := t.assigneeId.bind (fun a => db.users.find? (fun u => u.id == a))
      creator := db.users.find? (fun u => u.id == t.createdBy)
      project := db.projects.find? (fun p => p.id == t.projectId) })

/-- One uppercase hexadecimal digit. -/
def hexDigitUpper (n : Nat) : Char :=
  if n < 10 then Char.ofNat (48 + n) else Char.ofNat (65 + (n - 10))

/-- Invite-code generation, `randomBytes(8).toString('hex').toUpperCase()`: each byte becomes two
uppercase hex digits.  The random bytes are passed in explicitly. -/
def generateInviteCode (bytes : List Nat) : String :=
  String.mk (bytes.flatMap (fun b => [hexDigitUpper (b / 16 % 16), hexDigitUpper (b % 16)]))

/-- Storage `createProject`: insert the project row (with a generated
invite code and a fresh id) and then insert the creator's membership row
with role `owner`. -/
def createProject (db : DB) (now : Nat) (bytes : List Nat)
    (name : String) (description : Option String) (status : Option ProjectStatus)
    (deadline : Option Nat) (createdBy : Nat) : Project × DB :=
  let p : Project :=
    { id := db.nextId
      name := name
      description := description
      inviteCode := generateInviteCode bytes
      status := status.getD ProjectStatus.active
      deadline := deadline
      createdBy := createdBy
      createdAt := now
      updatedAt := now }
  let m : Membership :=
    { id := db.nextId + 1
      projectId := p.id
      userId := createdBy
      role := Role.owner
      joinedAt := now }
  (p, { db with
          projects := db.projects ++ [p]
          members := db.members ++ [m]
          nextId := db.nextId + 2 })

/-- Storage `addProjectMember`: insert one membership row. -/
def addProjectMember (db : DB) (now : Nat) (projectId userId : Nat) (role : Role) :
    Membership × DB :=
  let m : Membership :=
    { id := db.nextId
      projectId := projectId
      userId := userId
      role := role
      joinedAt := now }
  (m, { db with members := db.members ++ [m], nextId := db.nextId + 1 })

/-- Storage `deleteProject`: delete the project row; the schema's
`onDelete: "cascade"` foreign keys on `project_members.project_id` and
`tasks.project_id` remove the dependent rows.  Returns whether a row was
deleted (`rowCount > 0`). -/
def deleteProject (db : DB) (id : Nat) : Bool × DB :=
  if db.projects.any (fun p => p.id == id) then
    (true,
     { db with
         projects := db.projects.filter (fun p => !(p.id == id))
         members := db.members.filter (fun m => !(m.projectId == id))
         tasks := db.tasks.filter (fun t => !(t.projectId == id)) })
  else
    (false, db)

/-- Storage `deleteTask`: delete one task row. -/
def deleteTask (db : DB) (id : Nat) : Bool × DB :=
  if db.tasks.any (fun t => t.id == id) then
    (true, { db with tasks := db.tasks.filter (fun t => !(t.id == id)) })
  else
    (false, db)

/-- A partial update payload for a task, as sent in a request body
(`Partial<Task>`): `some` marks a field present in the JSON body.
Nullable columns use `Option (Option _)` so the body can set them to
null. -/
structure TaskUpdates where
  id : Option Nat := none
  title : Option String := none
  description : Option (Option String) := none
  status : Option TaskStatus := none
  priority : Option Priority := none
  projectId : Option Nat := none
  assigneeId : Option (Option Nat) := none
  createdBy : Option Nat := none
deriving DecidableEq, Repr

/-- Apply a task update payload to a row, as `set({ ...updates,
updatedAt: new Date() })` does: present fields overwrite, absent fields
keep the stored value, `updatedAt` is always refreshed. -/
def applyTaskUpdates (u : TaskUpdates) (now : Nat) (t : Task) : Task :=
  { id := u.id.getD t.id
    title := u.title.getD t.title
    description := u.description.getD t.description
    status := u.status.getD t.status
    priority := u.priority.getD t.priority
    projectId := u.projectId.getD t.projectId
    assigneeId := u.assigneeId.getD t.assigneeId
    createdBy := u.createdBy.getD t.createdBy
    createdAt := t.createdAt
    updatedAt := now }

/-- Storage `updateTask`: update the row whose id matches and return it. -/
def updateTask (db : DB) (now : Nat) (id : Nat) (u : TaskUpdates) :
    Option Task × DB :=
  match db.tasks.find? (fun t => t.id == id) with
  | none => (none, db)
  | some t =>
    let t' := applyTaskUpdates u now t
    (some t',
     { db with tasks := db.tasks.map (fun x => if x.id == id then t' else x) })

/-- A partial update payload for a project (`Partial<Project>`). -/
structure ProjectUpdates where
  id : Option Nat := none
  name : Option String := none
  description : Option (Option String) := none
  inviteCode : Option String := none
  status : Option ProjectStatus := none
  deadline : Option (Option Nat) := none
  createdBy : Option Nat := none
deriving DecidableEq, Repr

/-- Apply a project update payload to a row (`set({ ...updates,
updatedAt: new Date() })`). -/
def applyProjectUpdates (u : ProjectUpdates) (now : Nat) (p : Project) : Project :=
  { id := u.id.getD p.id
    name := u.name.getD p.name
    description := u.description.getD p.description
    inviteCode := u.inviteCode.getD p.inviteCode
    status := u.status.getD p.status
    deadline := u.deadline.getD p.deadline
    createdBy := u.createdBy.getD p.createdBy
    createdAt := p.createdAt
    updatedAt := now }

/-- Storage `updateProject`: update the row whose id matches and return it. -/
def updateProject (db : DB) (now : Nat) (id : Nat) (u : ProjectUpdates) :
    Option Project × DB :=
  match db.projects.find? (fun p => p.id == id) with
  | none => (none, db)
  | some p =>
    let p' := applyProjectUpdates u now p
    (some p',
     { db with projects := db.projects.map (fun x => if x.id == id then p' else x) })

/-! ## Authentication primitives -/

/-- The payload `jwt.sign` embeds: the user's id and email. -/
structure JwtPayload where
  id : Nat
  email : String
deriving DecidableEq, Repr

/-- A signed token: its payload together with the secret it was signed
with (signature verification succeeds exactly when secrets match). -/
structure Token where
  payload : JwtPayload
  signedWith : String
deriving DecidableEq, Repr

/-- Signing, `jwt.sign(payload, secret)`. -/
def jwtSign (secret : String) (p : JwtPayload) : Token :=
  { payload := p, signedWith := secret }

/-- Verification, `jwt.verify(token, secret)`: the decoded payload when the signature
checks out. -/
def jwtVerify (secret : String) (t : Token) : Option JwtPayload :=
  if t.signedWith == secret then some t.payload else none

/-- The user projection returned by register/login/`me`
(`{ id, firstName, lastName, email, profileImageUrl }`). -/
structure AuthUserView where
  id : Nat
  firstName : String
  lastName : String
  email : String
  profileImageUrl : Option String
deriving DecidableEq, Repr

/-- Project the public fields of a user row. -/
def User.toView (u : User) : AuthUserView :=
  { id := u.id
    firstName := u.firstName
    lastName := u.lastName
    email := u.email
    profileImageUrl := u.profileImageUrl }

/-- The body of `POST /api/auth/register` after `insertUserSchema`
validation. -/
structure RegisterBody where
  firstName : String
  lastName : String
  email : String
  password : String
  profileImageUrl : Option String := none
deriving DecidableEq, Repr

/-- The 201 payload of a successful registration. -/
structure RegisterResp where
  token : Token
  user : AuthUserView
deriving DecidableEq, Repr

/-! ## Route handlers (`registerRoutes`) -/

/-- Handler for `POST /api/auth/register`: reject a duplicate email with 400
"User already exists"; otherwise hash the password, insert the user and
return a signed token with the user projection (201). -/
def registerHandler (db : DB) (now : Nat) (hash : String → String)
    (secret : String) (body : RegisterBody) : HResult RegisterResp × DB :=
  match getUserByEmail db body.email with
  | some _ => (.err 400 "User already exists", db)
  | none =>
    let u : User :=
      { id := db.nextId
        firstName := body.firstName
        lastName := body.lastName
        email := body.email
        password := hash body.password
        profileImageUrl := body.profileImageUrl
        createdAt := now
        updatedAt := now }
    let db' := { db with users := db.users ++ [u], nextId := db.nextId + 1 }
    let token := jwtSign secret { id := u.id, email := u.email }
    (.ok 201 { token := token, user := u.toView }, db')

/-- Handler for `GET /api/auth/me` behind `authenticateToken`: 401 with no token,
403 on a bad signature, 404 when the decoded id has no user row, else the
user projection. -/
def meHandler (db : DB) (secret : String) (token : Option Token) :
    HResult AuthUserView :=
  match token with
  | none => .err 401 "Access token required"
  | some t =>
    match jwtVerify secret t with
    | none => .err 403 "Invalid token"
    | some payload =>
      match getUser db payload.id with
      | none => .err 404 "User not found"
      | some u => .ok 200 u.toView

/-- Handler for `POST /api/projects` (behind `authenticateToken`): validate with
`insertProjectSchema` (which drops id/inviteCode/createdBy), create the
project with the caller as `createdBy`, and return the hydrated project
(201). -/
def createProjectHandler (db : DB) (now : Nat) (bytes : List Nat) (callerId : Nat)
    (name : String) (description : Option String) (status : Option ProjectStatus)
    (deadline : Option Nat) : HResult ProjectWithMembers × DB :=
  let (p, db') := createProject db now bytes name description status deadline callerId
  match getProjectWithMembers db' p.id with
  | none => (.err 500 "Failed to create project", db')
  | some full => (.ok 201 full, db')

/-- Handler for `PUT /api/projects/:projectId` (behind `authenticateToken` and
`checkProjectPermission`): non-members get 403 from the middleware, only
owners may update, the body's `id`/`createdBy`/`inviteCode` are deleted
before the update. -/
def updateProjectHandler (db : DB) (now : Nat) (callerId projectId : Nat)
    (body : ProjectUpdates) : HResult Project × DB :=
  match getUserProjectRole db projectId callerId with
  | none => (.err 403 "Access denied to this project", db)
  | some role =>
    if role = Role.owner then
      let u := { body with id := none, createdBy := none, inviteCode := none }
      match updateProject db now projectId u with
      | (none, db') => (.err 404 "Project not found", db')
      | (some p, db') => (.ok 200 p, db')
    else
      (.err 403 "Only project owners can update projects", db)

/-- Handler for `DELETE /api/projects/:projectId` (behind `authenticateToken` and
`checkProjectPermission`): owners only; 404 when nothing was deleted,
else 204. -/
def deleteProjectHandler (db : DB) (callerId projectId : Nat) :
    HResult Unit × DB :=
  match getUserProjectRole db projectId callerId with
  | none => (.err 403 "Access denied to this project", db)
  | some role =>
    if role = Role.owner then
      match deleteProject db projectId with
      | (false, db') => (.err 404 "Project not found", db')
      | (true, db') => (.ok 204 (), db')
    else
      (.err 403 "Only project owners can delete projects", db)

/-- Handler for `POST /api/projects/join` (behind `authenticateToken`): 400 without a
code, 404 when no project carries the code, 400 when the caller already
has a membership row, else add one `member` row and return the hydrated
project. -/
def joinProjectHandler (db : DB) (now : Nat) (callerId : Nat)
    (inviteCode : Option String) : HResult ProjectWithMembers × DB :=
  match inviteCode with
  | none => (.err 400 "Invite code required", db)
  | some code =>
    match getProjectByInviteCode db code with
    | none => (.err 404 "Invalid invite code", db)
    | some project =>
      match getUserProjectRole db project.id callerId with
      | some _ => (.err 400 "Already a member of this project", db)
      | none =>
        let (_, db') := addProjectMember db now project.id callerId Role.member
        match getProjectWithMembers db' project.id with
        | none => (.err 500 "Failed to join project", db')
        | some full => (.ok 200 full, db')

/-- Handler for `PUT /api/tasks/:taskId` (behind `authenticateToken`): 404 for an
unknown task; the caller's role is looked up in the task's own project
and its absence gives 403; a `member` who neither created the task nor
is its assignee gets 403 "Can only edit your own tasks"; the body's
`id`/`projectId`/`createdBy` are deleted before the update. -/
def putTaskHandler (db : DB) (now : Nat) (callerId taskId : Nat)
    (body : TaskUpdates) : HResult Task × DB :=
  match findTaskRow db taskId with
  | none => (.err 404 "Task not found", db)
  | some task =>
    match getUserProjectRole db task.projectId callerId with
    | none => (.err 403 "Access denied", db)
    | some role =>
      if role = Role.member ∧ task.assigneeId ≠ some callerId ∧
          task.createdBy ≠ callerId then
        (.err 403 "Can only edit your own tasks", db)
      else
        let u := { body with id := none, projectId := none, createdBy := none }
        match updateTask db now taskId u with
        | (none, db') => (.err 404 "Task not found", db')
        | (some t, db') => (.ok 200 t, db')

/-- Handler for `PATCH /api/projects/:projectId/tasks/:taskId` (behind
`authenticateToken` only): 404 for an unknown task; the caller's role is
looked up against the *URL's* `projectId` (not the task's own
`projectId`), any role suffices, and the body's `id`/`projectId`/
`createdBy` are deleted before the update. -/
def patchTaskHandler (db : DB) (now : Nat) (callerId urlProjectId taskId : Nat)
    (body : TaskUpdates) : HResult Task × DB :=
  match findTaskRow db taskId with
  | none => (.err 404 "Task not found", db)
  | some _ =>
    match getUserProjectRole db urlProjectId callerId with
    | none => (.err 403 "Access denied", db)
    | some _ =>
      let u := { body with id := none, projectId := none, createdBy := none }
      match updateTask db now taskId u with
      | (none, db') => (.err 404 "Task not found", db')
      | (some t, db') => (.ok 200 t, db')

/-- Handler for `DELETE /api/tasks/:taskId` (behind `authenticateToken`): role looked
up in the task's own project; only owners or the task's creator may
delete. -/
def deleteTaskHandler (db : DB) (callerId taskId : Nat) : HResult Unit × DB :=
  match findTaskRow db taskId with
  | none => (.err 404 "Task not found", db)
  | some task =>
    match getUserProjectRole db task.projectId callerId with
    | none => (.err 403 "Access denied", db)
    | some role =>
      if role ≠ Role.owner ∧ task.createdBy ≠ callerId then
        (.err 403 "Only project owners and task creators can delete tasks", db)
      else
        match deleteTask db taskId with
        | (false, db') => (.err 404 "Task not found", db')
        | (true, db') => (.ok 204 (), db')

/-! ## WebSocket broadcast -/

/-- The serialized event envelope: `{ projectId, ...data }` with the
event kind in `data.type`. -/
structure Envelope where
  projectId : Nat
  eventType : String
deriving DecidableEq, Repr

/-- One WebSocket client: whether its `readyState` is OPEN, the project
id of the last `join_project` message it sent (accepted but never used
for filtering), and the messages written to it. -/
structure Client where
  isOpen : Bool
  joinedProjectId : Option Nat
  outbox : List Envelope
deriving DecidableEq, Repr

/-- Broadcast, `broadcast(projectId, data)`: write the envelope to every client
whose socket is open — `wss.clients.forEach` with only a `readyState`
check, no room filtering. -/
def broadcast (clients : List Client) (projectId : Nat) (eventType : String) :
    List Client :=
  clients.map (fun c =>
    if c.isOpen then
      { c with outbox := c.outbox ++ [{ projectId := projectId, eventType := eventType }] }
    else c)

/-! ## Concrete fixtures used by witnesses and counterexamples -/

/-- Fixture user Alice. -/
def alice : User :=
  { id := 1, firstName := "Alice", lastName := "A", email := "alice@x.com"
    password := "hashA", profileImageUrl := none, createdAt := 0, updatedAt := 0 }

/-- Fixture user Bob. -/
def bob : User :=
  { id := 2, firstName := "Bob", lastName := "B", email := "bob@x.com"
    password := "hashB", profileImageUrl := none, createdAt := 0, updatedAt := 0 }

/-- Fixture user Carol. -/
def carol : User :=
  { id := 3, firstName := "Carol", lastName := "C", email := "carol@x.com"
    password := "hashC", profileImageUrl := none, createdAt := 0, updatedAt := 0 }

/-- Fixture project A, created and owned by Alice. -/
def projectA : Project :=
  { id := 10, name := "Sprint 1", description := none, inviteCode := "AAAA111122223333"
    status := ProjectStatus.active, deadline := none, createdBy := 1
    createdAt := 0, updatedAt := 0 }

/-- Fixture project B, created and owned by Bob. -/
def projectB : Project :=
  { id := 11, name := "Sprint 2", description := none, inviteCode := "BBBB111122223333"
    status := ProjectStatus.active, deadline := none, createdBy := 2
    createdAt := 0, updatedAt := 0 }

/-- Fixture task in project A, created by Alice, unassigned. -/
def taskA : Task :=
  { id := 30, title := "Write spec", description := none, status := TaskStatus.todo
    priority := Priority.medium, projectId := 10, assigneeId := none, createdBy := 1
    createdAt := 0, updatedAt := 0 }

/-- Fixture database: Alice owns project A, Bob owns project B, Carol is a
plain member of project A; task 30 lives in project A. -/
def sampleDB : DB :=
  { users := [alice, bob, carol]
    projects := [projectA, projectB]
    members :=
      [ { id := 20, projectId := 10, userId := 1, role := Role.owner, joinedAt := 0 }
      , { id := 21, projectId := 11, userId := 2, role := Role.owner, joinedAt := 0 }
      , { id := 22, projectId := 10, userId := 3, role := Role.member, joinedAt := 0 } ]
    tasks := [taskA]
    nextId := 100 }

/-- Fixture random bytes for invite-code generation. -/
def sampleBytes : List Nat := [18, 52, 86, 120, 154, 188, 222, 240]

/-- A malicious project-update payload trying to set the protected
fields. -/
def evilProjectBody : ProjectUpdates :=
  { id := some 999, createdBy := some 999, inviteCode := some "EVIL" }

/-- A malicious task-update payload trying to set the protected fields. -/
def evilTaskBody : TaskUpdates :=
  { id := some 999, projectId := some 999, createdBy := some 999 }

/-- Fixture registration body reusing Alice's email. -/
def dupRegisterBody : RegisterBody :=
  { firstName := "Dana", lastName := "D", email := "alice@x.com", password := "pw" }

/-- Fixture registration body with a fresh email. -/
def freshRegisterBody : RegisterBody :=
  { firstName := "Dana", lastName := "D", email := "dana@x.com", password := "pw" }

/-- Fixture open client that sent `join_project` for project B. -/
def clientJoinedB : Client :=
  { isOpen := true, joinedProjectId := some 11, outbox := [] }

/-- Fixture closed client. -/
def clientClosed : Client :=
  { isOpen := false, joinedProjectId := some 10, outbox := [] }

/-! ## Claims -/

/-- C10: for every published event, the serialized envelope with the
affected project id and the event kind is written to every currently open
real-time connection, regardless of which project that connection sent a
`join_project` message for (no hypothesis constrains
`c.joinedProjectId`). -/
theorem c10_broadcast_reaches_every_open_client (clients : List Client)
    (projectId : Nat) (eventType : String) (c : Client)
    (hc : c ∈ clients) (hopen : c.isOpen = true) :
    { c with outbox := c.outbox ++ [{ projectId := projectId, eventType := eventType }] }
      ∈ broadcast clients projectId eventType := by
  unfold broadcast
  exact List.mem_map.mpr ⟨c, hc, by simp [hopen]⟩

/-- Witness for C10: a client subscribed to project B still receives a
project-A envelope. -/
theorem c10_broadcast_reaches_every_open_client_witness :
    { clientJoinedB with
        outbox := [{ projectId := 10, eventType := "task_updated" }] }
      ∈ broadcast [clientJoinedB, clientClosed] 10 "task_updated" :=
  c10_broadcast_reaches_every_open_client [clientJoinedB, clientClosed]
    10 "task_updated" clientJoinedB (by decide) (by decide)

/-- C1 (code bug exhibit): Bob holds no membership row for project A, yet
the PATCH endpoint — which looks the caller's role up against the URL's
project id instead of the task's — lets him update the status of task 30
of project A by supplying project B's id in the URL.  The stored task
changes from `todo` to `in_progress`. -/
theorem c1_patch_crosses_project_boundary :
    getUserProjectRole sampleDB projectA.id bob.id = none ∧
    findTaskRow sampleDB taskA.id = some taskA ∧
    taskA.projectId = projectA.id ∧
    taskA.status = TaskStatus.todo ∧
    (patchTaskHandler sampleDB 5 bob.id projectB.id taskA.id
        { status := some TaskStatus.in_progress }).1.isOk = true ∧
    (findTaskRow (patchTaskHandler sampleDB 5 bob.id projectB.id taskA.id
        { status := some TaskStatus.in_progress }).2 taskA.id).map Task.status
      = some TaskStatus.in_progress := by decide

/-- Counterexample to C2: Carol's role in task 30's project is `member`,
she neither created the task nor is its assignee, yet her PATCH request
succeeds and changes the stored task — the claim's demand of an
authorization error for every such PUT-or-PATCH attempt is false. -/
theorem c2_counterexample_patch_member_edits_others_task :
    getUserProjectRole sampleDB taskA.projectId carol.id = some Role.member ∧
    taskA.createdBy ≠ carol.id ∧
    taskA.assigneeId ≠ some carol.id ∧
    (patchTaskHandler sampleDB 5 carol.id taskA.projectId taskA.id
        { status := some TaskStatus.done }).1.isOk = true ∧
    (findTaskRow (patchTaskHandler sampleDB 5 carol.id taskA.projectId taskA.id
        { status := some TaskStatus.done }).2 taskA.id).map Task.status
      = some TaskStatus.done := by decide

/-- C2 (amended): for every PUT task-update request by a caller whose
role in the task's project is `member` and who neither created the task
nor is its assignee, the handler answers 403 "Can only edit your own
tasks" and the database is unchanged. -/
theorem c2_put_member_edits_only_own_tasks (db : DB) (now callerId taskId : Nat)
    (body : TaskUpdates) (task : Task)
    (hfind : findTaskRow db taskId = some task)
    (hrole : getUserProjectRole db task.projectId callerId = some Role.member)
    (hcreated : task.createdBy ≠ callerId)
    (hassigned : task.assigneeId ≠ some callerId) :
    putTaskHandler db now callerId taskId body =
      (.err 403 "Can only edit your own tasks", db) := by
  simp [putTaskHandler, hfind, hrole, hcreated, hassigned]

/-- Witness for the amended C2 at Carol's PUT on Alice's task. -/
theorem c2_put_member_edits_only_own_tasks_witness :
    putTaskHandler sampleDB 5 carol.id taskA.id { status := some TaskStatus.done } =
      (.err 403 "Can only edit your own tasks", sampleDB) :=
  c2_put_member_edits_only_own_tasks sampleDB 5 carol.id taskA.id
    { status := some TaskStatus.done } taskA (by decide) (by decide)
    (by decide) (by decide)

/-- Counterexample to C3: a successful PATCH whose body carries a title
changes the stored task's title, so status is not the only field a
successful PATCH can change. -/
theorem c3_counterexample_patch_changes_title :
    (patchTaskHandler sampleDB 5 alice.id projectA.id taskA.id
        { title := some "Renamed" }).1.isOk = true ∧
    taskA.title = "Write spec" ∧
    (findTaskRow (patchTaskHandler sampleDB 5 alice.id projectA.id taskA.id
        { title := some "Renamed" }).2 taskA.id).map Task.title
      = some "Renamed" := by decide

/-- C3 (amended): for every successful PATCH whose body carries only a
status value, the returned task agrees with the stored pre-state task on
id, title, description, priority, projectId, assigneeId and createdBy —
only the status (and the refreshed updatedAt timestamp) may differ. -/
theorem c3_patch_status_only_frame (db : DB)
    (now callerId urlProjectId taskId : Nat) (st : Option TaskStatus)
    (h : (patchTaskHandler db now callerId urlProjectId taskId
        { status := st }).1.isOk = true) :
    ((patchTaskHandler db now callerId urlProjectId taskId
        { status := st }).1.okVal?).map
        (fun t => (t.id, t.title, t.description, t.priority, t.projectId,
          t.assigneeId, t.createdBy))
      = (findTaskRow db taskId).map
        (fun t => (t.id, t.title, t.description, t.priority, t.projectId,
          t.assigneeId, t.createdBy)) := by
  unfold patchTaskHandler updateTask findTaskRow at *
  cases hfind : List.find? (fun t => t.id == taskId) db.tasks with
  | none => simp [hfind, HResult.isOk] at h
  | some t0 =>
    simp only [hfind] at h ⊢
    cases hrole : getUserProjectRole db urlProjectId callerId with
    | none => simp [hrole, HResult.isOk] at h
    | some role =>
      simp [hrole, applyTaskUpdates, HResult.okVal?]

/-- Witness for the amended C3 at a concrete status-only PATCH. -/
theorem c3_patch_status_only_frame_witness :
    ((patchTaskHandler sampleDB 5 alice.id projectA.id taskA.id
        { status := some TaskStatus.done }).1.okVal?).map
        (fun t => (t.id, t.title, t.description, t.priority, t.projectId,
          t.assigneeId, t.createdBy))
      = (findTaskRow sampleDB taskA.id).map
        (fun t => (t.id, t.title, t.description, t.priority, t.projectId,
          t.assigneeId, t.createdBy)) :=
  c3_patch_status_only_frame sampleDB 5 alice.id projectA.id taskA.id
    (some TaskStatus.done) (by decide)

/-- C8: every project update (PUT) preserves the stored id, createdBy and
inviteCode, and every task update (PUT or PATCH) preserves the stored id,
projectId and createdBy, whatever the payload — the handlers delete these
fields from the body before applying it.  In particular a task's project
never changes through these endpoints. -/
theorem c8_updates_preserve_protected_fields (db : DB)
    (now callerId projectId urlProjectId taskId : Nat)
    (pbody : ProjectUpdates) (tbody : TaskUpdates) :
    ((updateProjectHandler db now callerId projectId pbody).1.isOk = true →
      ((updateProjectHandler db now callerId projectId pbody).1.okVal?).map
          (fun p => (p.id, p.createdBy, p.inviteCode))
        = (getProject db projectId).map (fun p => (p.id, p.createdBy, p.inviteCode))) ∧
    ((putTaskHandler db now callerId taskId tbody).1.isOk = true →
      ((putTaskHandler db now callerId taskId tbody).1.okVal?).map
          (fun t => (t.id, t.projectId, t.createdBy))
        = (findTaskRow db taskId).map (fun t => (t.id, t.projectId, t.createdBy))) ∧
    ((patchTaskHandler db now callerId urlProjectId taskId tbody).1.isOk = true →
      ((patchTaskHandler db now callerId urlProjectId taskId tbody).1.okVal?).map
          (fun t => (t.id, t.projectId, t.createdBy))
        = (findTaskRow db taskId).map (fun t => (t.id, t.projectId, t.createdBy))) := by
  refine ⟨?_, ?_, ?_⟩
  · intro h
    unfold updateProjectHandler updateProject getProject at *
    cases hrole : getUserProjectRole db projectId callerId with
    | none => simp [hrole, HResult.isOk] at h
    | some role =>
      simp only [hrole] at h ⊢
      by_cases hro : role = Role.owner
      · simp only [hro, if_true] at h ⊢
        cases hfind : List.find? (fun p => p.id == projectId) db.projects with
        | none => simp [hfind, HResult.isOk] at h
        | some p0 => simp [hfind, applyProjectUpdates, HResult.okVal?]
      · simp [hro, HResult.isOk] at h
  · intro h
    unfold putTaskHandler updateTask findTaskRow at *
    cases hfind : List.find? (fun t => t.id == taskId) db.tasks with
    | none => simp [hfind, HResult.isOk] at h
    | some t0 =>
      simp only [hfind] at h ⊢
      cases hrole : getUserProjectRole db t0.projectId callerId with
      | none => simp [hrole, HResult.isOk] at h
      | some role =>
        simp only [hrole] at h ⊢
        by_cases hmem : role = Role.member ∧ t0.assigneeId ≠ some callerId ∧
            t0.createdBy ≠ callerId
        · simp [hmem, HResult.isOk] at h
        · simp [hmem, applyTaskUpdates, HResult.okVal?]
  · intro h
    unfold patchTaskHandler updateTask findTaskRow at *
    cases hfind : List.find? (fun t => t.id == taskId) db.tasks with
    | none => simp [hfind, HResult.isOk] at h
    | some t0 =>
      simp only [hfind] at h ⊢
      cases hrole : getUserProjectRole db urlProjectId callerId with
      | none => simp [hrole, HResult.isOk] at h
      | some role => simp [hrole, applyTaskUpdates, HResult.okVal?]

/-- Witness for C8: payloads that try to overwrite every protected field
still come back with the stored values. -/
theorem c8_updates_preserve_protected_fields_witness :
    (((updateProjectHandler sampleDB 5 alice.id projectA.id evilProjectBody).1.okVal?).map
        (fun p => (p.id, p.createdBy, p.inviteCode))
      = (getProject sampleDB projectA.id).map
        (fun p => (p.id, p.createdBy, p.inviteCode))) ∧
    (((putTaskHandler sampleDB 5 alice.id taskA.id evilTaskBody).1.okVal?).map
        (fun t => (t.id, t.projectId, t.createdBy))
      = (findTaskRow sampleDB taskA.id).map
        (fun t => (t.id, t.projectId, t.createdBy))) ∧
    (((patchTaskHandler sampleDB 5 alice.id projectA.id taskA.id evilTaskBody).1.okVal?).map
        (fun t => (t.id, t.projectId, t.createdBy))
      = (findTaskRow sampleDB taskA.id).map
        (fun t => (t.id, t.projectId, t.createdBy))) :=
  ⟨(c8_updates_preserve_protected_fields sampleDB 5 alice.id projectA.id
      projectA.id taskA.id evilProjectBody evilTaskBody).1 (by decide),
   (c8_updates_preserve_protected_fields sampleDB 5 alice.id projectA.id
      projectA.id taskA.id evilProjectBody evilTaskBody).2.1 (by decide),
   (c8_updates_preserve_protected_fields sampleDB 5 alice.id projectA.id
      projectA.id taskA.id evilProjectBody evilTaskBody).2.2 (by decide)⟩

/-- C9: after a successful project deletion no membership row and no task
row of that project remains (schema-level cascade), and a subsequent
lookup of the project by id returns nothing. -/
theorem c9_delete_project_cascades (db : DB) (callerId projectId : Nat)
    (h : (deleteProjectHandler db callerId projectId).1 = .ok 204 ()) :
    (∀ m ∈ (deleteProjectHandler db callerId projectId).2.members,
        m.projectId ≠ projectId) ∧
    (∀ t ∈ (deleteProjectHandler db callerId projectId).2.tasks,
        t.projectId ≠ projectId) ∧
    getProject (deleteProjectHandler db callerId projectId).2 projectId = none := by
  unfold deleteProjectHandler deleteProject at *
  cases hrole : getUserProjectRole db projectId callerId with
  | none => simp [hrole] at h
  | some role =>
    simp only [hrole] at h ⊢
    by_cases hro : role = Role.owner
    · simp only [hro, if_true] at h ⊢
      by_cases hany : db.projects.any (fun p => p.id == projectId)
      · simp only [hany, if_true] at h ⊢
        refine ⟨?_, ?_, ?_⟩
        · intro m hm
          have hpm := (List.mem_filter.mp hm).2
          simpa using hpm
        · intro t ht
          have hpt := (List.mem_filter.mp ht).2
          simpa using hpt
        · unfold getProject
          rw [List.find?_eq_none]
          intro p hp
          have hpp := (List.mem_filter.mp hp).2
          simpa using hpp
      · simp [hany] at h
    · simp [hro] at h

/-- Witness for C9: Alice deletes project A. -/
theorem c9_delete_project_cascades_witness :
    (∀ m ∈ (deleteProjectHandler sampleDB 1 10).2.members, m.projectId ≠ 10) ∧
    (∀ t ∈ (deleteProjectHandler sampleDB 1 10).2.tasks, t.projectId ≠ 10) ∧
    getProject (deleteProjectHandler sampleDB 1 10).2 10 = none :=
  c9_delete_project_cascades sampleDB 1 10 (by decide)

/-- C4: every user record embedded in a hydrated project (member users
and creator) or hydrated task (assignee and creator) is an element of the
stored `users` table — a complete row, which by definition of `User`
carries the `password` hash field; the hydration performs no column
projection. -/
theorem c4_hydrated_responses_embed_full_user_rows (db : DB)
    (projectId taskId : Nat) :
    (∀ pw, getProjectWithMembers db projectId = some pw →
      (∀ mw ∈ pw.members, ∀ u, mw.user = some u → u ∈ db.users) ∧
      (∀ u, pw.creator = some u → u ∈ db.users)) ∧
    (∀ tw, getTask db taskId = some tw →
      (∀ u, tw.assignee = some u → u ∈ db.users) ∧
      (∀ u, tw.creator = some u → u ∈ db.users)) := by
  constructor
  · intro pw hpw
    unfold getProjectWithMembers at hpw
    obtain ⟨p, hp, rfl⟩ := Option.map_eq_some'.mp hpw
    constructor
    · intro mw hmw u hu
      obtain ⟨m, hm, rfl⟩ := List.mem_map.mp hmw
      exact List.mem_of_find?_eq_some hu
    · intro u hu
      exact List.mem_of_find?_eq_some hu
  · intro tw htw
    unfold getTask at htw
    obtain ⟨t, ht, rfl⟩ := Option.map_eq_some'.mp htw
    constructor
    · intro u hu
      obtain ⟨a, ha, hfind⟩ := Option.bind_eq_some.mp hu
      exact List.mem_of_find?_eq_some hfind
    · intro u hu
      exact List.mem_of_find?_eq_some hu

/-- Witness for C4: Carol's full user row — password hash included — is
what project A's hydration embeds for her membership. -/
theorem c4_hydrated_responses_embed_full_user_rows_witness :
    carol ∈ sampleDB.users :=
  ((c4_hydrated_responses_embed_full_user_rows sampleDB 10 30).1 _ rfl).1
    { member := { id := 22, projectId := 10, userId := 3
                  role := Role.member, joinedAt := 0 }
      user := some carol } (by decide) carol rfl

/-- Helper: a hex digit of a value below 16 is an uppercase hex
character. -/
theorem hexDigitUpper_mem (n : Nat) (hn : n < 16) :
    hexDigitUpper n ∈ "0123456789ABCDEF".data := by
  interval_cases n <;> decide

/-- Helper: the invite code has two characters per byte. -/
theorem generateInviteCode_data_length (bytes : List Nat) :
    (generateInviteCode bytes).length = 2 * bytes.length := by
  unfold generateInviteCode
  induction bytes with
  | nil => rfl
  | cons b bs ih =>
    simp only [List.flatMap_cons] at *
    simp [String.length] at ih ⊢
    omega

/-- Helper: every character of the invite code is an uppercase hex
digit. -/
theorem generateInviteCode_chars (bytes : List Nat) :
    ∀ c ∈ (generateInviteCode bytes).data, c ∈ "0123456789ABCDEF".data := by
  unfold generateInviteCode
  intro c hc
  simp only [String.data] at hc
  obtain ⟨b, hb, hcb⟩ := List.mem_flatMap.mp hc
  simp only [List.mem_cons, List.not_mem_nil, or_false] at hcb
  rcases hcb with rfl | rfl
  · exact hexDigitUpper_mem _ (Nat.mod_lt _ (by norm_num))
  · exact hexDigitUpper_mem _ (Nat.mod_lt _ (by norm_num))

/-- C6: immediately after `createProject`, the membership rows of the new
project are exactly one row: the creator with role `owner`.  The
hypotheses say stored project ids are below the id counter and every
membership row references a stored project (foreign key). -/
theorem c6_creator_is_sole_owner (db : DB) (now : Nat) (bytes : List Nat)
    (name : String) (description : Option String) (status : Option ProjectStatus)
    (deadline : Option Nat) (createdBy : Nat)
    (hp : ∀ p ∈ db.projects, p.id < db.nextId)
    (hfk : ∀ m ∈ db.members, ∃ p ∈ db.projects, m.projectId = p.id) :
    ((createProject db now bytes name description status deadline createdBy).2).members.filter
        (fun m => m.projectId ==
          (createProject db now bytes name description status deadline createdBy).1.id)
      = [ { id := db.nextId + 1, projectId := db.nextId, userId := createdBy
          , role := Role.owner, joinedAt := now } ] := by
  unfold createProject
  simp only [List.filter_append]
  rw [List.filter_eq_nil_iff.mpr ?hnil]
  · simp
  case hnil =>
    intro m hm
    obtain ⟨p, hpmem, hpid⟩ := hfk m hm
    have hlt := hp p hpmem
    simp only [hpid, beq_iff_eq]
    omega

/-- Witness for C6: Alice creates a project in the sample database. -/
theorem c6_creator_is_sole_owner_witness :
    ((createProject sampleDB 7 sampleBytes "P" none none none 1).2).members.filter
        (fun m => m.projectId ==
          (createProject sampleDB 7 sampleBytes "P" none none none 1).1.id)
      = [ { id := 101, projectId := 100, userId := 1
          , role := Role.owner, joinedAt := 7 } ] :=
  c6_creator_is_sole_owner sampleDB 7 sampleBytes "P" none none none 1
    (by decide) (by decide)

/-- C7: joining by invite code answers 404 for an unknown code and 400
(leaving the database unchanged) for an existing member; otherwise it
appends exactly one `member` row for the caller and leaves the projects
table — hence every stored invite code — untouched.  Stored codes are
generated from 8 random bytes as 16 uppercase hexadecimal characters. -/
theorem c7_join_adds_one_member_and_codes_are_hex (db : DB)
    (now callerId : Nat) (code : String) (bytes : List Nat)
    (hb : bytes.length = 8) :
    (getProjectByInviteCode db code = none →
      joinProjectHandler db now callerId (some code) =
        (.err 404 "Invalid invite code", db)) ∧
    (∀ p, getProjectByInviteCode db code = some p →
      (getUserProjectRole db p.id callerId).isSome = true →
      joinProjectHandler db now callerId (some code) =
        (.err 400 "Already a member of this project", db)) ∧
    (∀ p, getProjectByInviteCode db code = some p →
      getUserProjectRole db p.id callerId = none →
      (joinProjectHandler db now callerId (some code)).1.isOk = true ∧
      (joinProjectHandler db now callerId (some code)).2.members =
        db.members ++
          [ { id := db.nextId, projectId := p.id, userId := callerId
            , role := Role.member, joinedAt := now } ] ∧
      (joinProjectHandler db now callerId (some code)).2.projects =
        db.projects) ∧
    (generateInviteCode bytes).length = 16 ∧
    (∀ c ∈ (generateInviteCode bytes).data, c ∈ "0123456789ABCDEF".data) := by
  refine ⟨?_, ?_, ?_, ?_, generateInviteCode_chars bytes⟩
  · intro hnone
    unfold joinProjectHandler
    simp [hnone]
  · intro p hp hs
    obtain ⟨r, hr⟩ := Option.isSome_iff_exists.mp hs
    unfold joinProjectHandler
    simp [hp, hr]
  · intro p hp hrole
    have hmem : p ∈ db.projects := List.mem_of_find?_eq_some hp
    have hq : ∃ q, List.find? (fun x => x.id == p.id) db.projects = some q := by
      have hsome : (List.find? (fun x => x.id == p.id) db.projects).isSome := by
        rw [List.find?_isSome]
        exact ⟨p, hmem, by simp⟩
      exact Option.isSome_iff_exists.mp hsome
    obtain ⟨q, hq⟩ := hq
    unfold joinProjectHandler addProjectMember getProjectWithMembers getProject
    simp [hp, hrole, hq, HResult.isOk]
  · rw [generateInviteCode_data_length, hb]

/-- Witness for C7: Alice joins project B with its invite code. -/
theorem c7_join_adds_one_member_and_codes_are_hex_witness :
    (joinProjectHandler sampleDB 7 1 (some "BBBB111122223333")).1.isOk = true ∧
    (joinProjectHandler sampleDB 7 1 (some "BBBB111122223333")).2.members =
      sampleDB.members ++
        [ { id := 100, projectId := 11, userId := 1
          , role := Role.member, joinedAt := 7 } ] ∧
    (joinProjectHandler sampleDB 7 1 (some "BBBB111122223333")).2.projects =
      sampleDB.projects ∧
    (generateInviteCode sampleBytes).length = 16 ∧
    (∀ c ∈ (generateInviteCode sampleBytes).data, c ∈ "0123456789ABCDEF".data) :=
  have h := c7_join_adds_one_member_and_codes_are_hex sampleDB 7 1
    "BBBB111122223333" sampleBytes (by decide)
  have h3 := h.2.2.1 projectB (by decide) (by decide)
  ⟨h3.1, h3.2.1, h3.2.2, h.2.2.2.1, h.2.2.2.2⟩

/-- C5: registering with an email that already has a user row yields the
duplicate-email error (the spec's conflict error, surfaced as 400 "User
already exists") and leaves the database unchanged; registering with a
fresh email succeeds and the returned token immediately authenticates a
`/me` request against the post-registration state, which answers with
that same user's id and email.  The hypothesis is the id-counter
invariant: every stored user id is below `nextId`. -/
theorem c5_register_conflict_and_fresh_me (db : DB) (now : Nat)
    (hash : String → String) (secret : String) (body : RegisterBody)
    (hids : ∀ u ∈ db.users, u.id < db.nextId) :
    ((getUserByEmail db body.email).isSome = true →
      registerHandler db now hash secret body =
        (.err 400 "User already exists", db)) ∧
    (getUserByEmail db body.email = none →
      (registerHandler db now hash secret body).1.isOk = true ∧
      ∀ resp ∈ (registerHandler db now hash secret body).1.okVal?,
        resp.user.id = db.nextId ∧
        resp.user.email = body.email ∧
        meHandler (registerHandler db now hash secret body).2 secret
            (some resp.token) = .ok 200 resp.user) := by
  constructor
  · intro hs
    obtain ⟨u0, hu0⟩ := Option.isSome_iff_exists.mp hs
    unfold registerHandler
    simp [hu0]
  · intro hnone
    unfold registerHandler
    simp only [hnone]
    refine ⟨rfl, ?_⟩
    intro resp hresp
    simp only [HResult.okVal?, Option.mem_def, Option.some.injEq] at hresp
    subst hresp
    refine ⟨rfl, rfl, ?_⟩
    unfold meHandler jwtVerify jwtSign getUser User.toView
    simp only [beq_self_eq_true, if_true]
    rw [List.find?_append, List.find?_eq_none.mpr ?fresh]
    · simp
    case fresh =>
      intro x hx
      have hlt := hids x hx
      simp only [beq_iff_eq]
      omega

/-- Witness for C5: registering Alice's email again fails and changes
nothing; registering a fresh email succeeds and its token works on
`/me`. -/
theorem c5_register_conflict_and_fresh_me_witness :
    registerHandler sampleDB 7 (fun s => s) "sec" dupRegisterBody =
      (.err 400 "User already exists", sampleDB) ∧
    (registerHandler sampleDB 7 (fun s => s) "sec" freshRegisterBody).1.isOk = true ∧
    meHandler (registerHandler sampleDB 7 (fun s => s) "sec" freshRegisterBody).2 "sec"
        (some { payload := { id := 100, email := "dana@x.com" }, signedWith := "sec" }) =
      .ok 200 { id := 100, firstName := "Dana", lastName := "D"
              , email := "dana@x.com", profileImageUrl := none } :=
  have hdup := c5_register_conflict_and_fresh_me sampleDB 7 (fun s => s) "sec"
    dupRegisterBody (by decide)
  have hfr := (c5_register_conflict_and_fresh_me sampleDB 7 (fun s => s) "sec"
    freshRegisterBody (by decide)).2 (by decide)
  ⟨hdup.1 (by decide), hfr.1,
   (hfr.2
      { token := { payload := { id := 100, email := "dana@x.com" }, signedWith := "sec" }
        user := { id := 100, firstName := "Dana", lastName := "D"
                  email := "dana@x.com", profileImageUrl := none } }
      (by decide)).2.2⟩

end ProjectFlow
